import Mathlib

/-!
Verification development for the `@turnkey/stacks` signing pipeline.

The TypeScript source is shallowly embedded in Lean:
* TS strings become `List Char`; TS `bigint` becomes `Int`; TS numbers used as
  byte values become `Nat`.
* Functions that `throw` become `Except SignerError` values; each distinct
  throw site gets its own `SignerError` constructor (the TS code throws
  `Error`s with distinct messages, so the constructors model the
  caller-distinguishable failure kinds).
* The external collaborators imported from `@stacks/transactions` and the
  Turnkey client (`validateStacksAddress`, `publicKeyToAddress`,
  `sigHashPreSign`, `fetch`, `signRawPayload`) are environment parameters in
  `SignEnv`; network calls performed during `signSTXTransfer` are recorded in
  an explicit trace of `NetCall` events.

Unless noted otherwise a definition embeds the function of the same name in
the repository's current `index.ts` (the copy shipped as
`src/unnamed/part_000`, which the README, CHANGELOG and the type definitions
in `src/unnamed/part_001` match; where the older copy in `src/src/index.ts`
differs, the difference is stated in the doc comment).
-/

namespace TurnkeyStacks

/-- Network type, embedding `StacksNetworkType = "testnet" | "mainnet"`
(`src/types.ts`). -/
inductive Network where
  | testnet
  | mainnet
deriving DecidableEq, Repr

/-- Error kinds for the distinct `throw new Error(...)` sites of `index.ts`.
The payloads carry the dynamic data interpolated into each TS error message. -/
inductive SignerError where
  | invalidKeyFormat (len : Nat)
  | invalidKeyPrefix (pfx : List Char)
  | invalidRecipient (recipient : List Char)
  | invalidAmount
  | invalidRecoveryByte (v : List Char)
  | invalidSignatureLength (len : Nat)
  | nonceFetchFailed (status : Nat)
  | signingFailed (msg : List Char)
deriving DecidableEq, Repr

/-- Embeds the TS expression
`pubKeyHex.startsWith("0x") ? pubKeyHex.slice(2) : pubKeyHex`
(`validateCompressedPublicKey`, index.ts). -/
def strip0x (s : List Char) : List Char :=
  match s with
  | '0' :: 'x' :: t => t
  | t => t

/-- Embeds JavaScript `String.prototype.toLowerCase` for one character on the
ASCII range (identity elsewhere; the keys this code lower-cases are hex
strings, which are ASCII). -/
def toLowerChar (c : Char) : Char :=
  if 'A' ≤ c ∧ c ≤ 'Z' then Char.ofNat (c.toNat + 32) else c

/-- Embeds `validateCompressedPublicKey` (index.ts, `src/unnamed/part_000`
lines 89–110): strip an optional `0x`, lower-case, require exactly 66
characters, require the first two characters to be `02` or `03`.
The older copy in `src/src/index.ts` lines 76–97 is identical except that it
omits the `.toLowerCase()` call; see `validateCompressedPublicKeyLegacy`. -/
def validateCompressedPublicKey (pubKeyHex : List Char) : Except SignerError (List Char) :=
  let cleaned := (strip0x pubKeyHex).map toLowerChar
  if cleaned.length ≠ 66 then
    .error (.invalidKeyFormat cleaned.length)
  else
    let pfx := cleaned.take 2
    if pfx ≠ ('0' :: '2' :: []) ∧ pfx ≠ ('0' :: '3' :: []) then
      .error (.invalidKeyPrefix pfx)
    else
      .ok cleaned

/-- Embeds the older `validateCompressedPublicKey` copy
(`src/src/index.ts` lines 76–97), which does not lower-case. -/
def validateCompressedPublicKeyLegacy (pubKeyHex : List Char) : Except SignerError (List Char) :=
  let cleaned := strip0x pubKeyHex
  if cleaned.length ≠ 66 then
    .error (.invalidKeyFormat cleaned.length)
  else
    let pfx := cleaned.take 2
    if pfx ≠ ('0' :: '2' :: []) ∧ pfx ≠ ('0' :: '3' :: []) then
      .error (.invalidKeyPrefix pfx)
    else
      .ok cleaned

/-- Whitespace skipped by JavaScript `parseInt` (the ASCII part). -/
def isJsSpace (c : Char) : Bool :=
  c = ' ' ∨ c = '\t' ∨ c = '\n' ∨ c = '\r'

/-- Hexadecimal digit test, as `parseInt(_, 16)` accepts. -/
def isHexDigitChar (c : Char) : Bool :=
  ('0' ≤ c ∧ c ≤ '9') ∨ ('a' ≤ c ∧ c ≤ 'f') ∨ ('A' ≤ c ∧ c ≤ 'F')

/-- Value of a hexadecimal digit character. -/
def hexDigitVal (c : Char) : Nat :=
  if '0' ≤ c ∧ c ≤ '9' then c.toNat - '0'.toNat
  else if 'a' ≤ c ∧ c ≤ 'f' then c.toNat - 'a'.toNat + 10
  else c.toNat - 'A'.toNat + 10

/-- Big-endian value of a hexadecimal digit string. -/
def hexDigitsToNat (ds : List Char) : Nat :=
  ds.foldl (fun acc c => acc * 16 + hexDigitVal c) 0

/-- Embeds JavaScript `parseInt(s, 16)`: skip leading whitespace, optional
sign, optional `0x`/`0X`, then the longest run of hex digits; `none` models
`NaN` (no digits at all). -/
def parseIntHex (s : List Char) : Option Int :=
  let s1 := s.dropWhile isJsSpace
  let signAndRest : Int × List Char :=
    match s1 with
    | '-' :: t => (-1, t)
    | '+' :: t => (1, t)
    | t => (1, t)
  let s3 : List Char :=
    match signAndRest.2 with
    | '0' :: 'x' :: t => t
    | '0' :: 'X' :: t => t
    | t => t
  let ds := s3.takeWhile isHexDigitChar
  if ds.isEmpty then none
  else some (signAndRest.1 * (hexDigitsToNat ds : Int))

/-- Embeds `normalizeRecoveryByte` (index.ts): `parseInt(v, 16)` must be 0 or
1 (a `NaN` fails the `parsed !== 0 && parsed !== 1` guard too), and the result
is `parsed.toString(16).padStart(2, "0")`, i.e. `"00"` or `"01"`. -/
def normalizeRecoveryByte (v : List Char) : Except SignerError (List Char) :=
  match parseIntHex v with
  | none => .error (.invalidRecoveryByte v)
  | some parsed =>
      if parsed ≠ 0 ∧ parsed ≠ 1 then .error (.invalidRecoveryByte v)
      else if parsed = 0 then .ok ('0' :: '0' :: [])
      else .ok ('0' :: '1' :: [])

/-- Embeds JavaScript `String.prototype.padStart(n, c)`. -/
def padStart (s : List Char) (n : Nat) (c : Char) : List Char :=
  List.replicate (n - s.length) c ++ s

/-- Does `hay` begin with `needle`? -/
def startsWithChars : List Char → List Char → Bool
  | _, [] => true
  | [], _ :: _ => false
  | a :: as, b :: bs => a = b && startsWithChars as bs

/-- Embeds JavaScript `String.prototype.includes`: does `needle` occur as a
contiguous substring of `hay`? -/
def containsSub (hay needle : List Char) : Bool :=
  match hay with
  | [] => startsWithChars [] needle
  | _ :: t => startsWithChars hay needle || containsSub t needle

/-! ## SHA-256 over byte lists (bytes are `Nat` values < 256, words < 2^32) -/

/-- Right rotation of a 32-bit word. -/
def rotr32 (x n : Nat) : Nat :=
  ((x >>> n) ||| (x <<< (32 - n))) % 4294967296

/-- SHA-256 round constants. -/
def sha256K : List Nat :=
  [1116352408, 1899447441, 3049323471, 3921009573, 961987163, 1508970993,
   2453635748, 2870763221, 3624381080, 310598401, 607225278, 1426881987,
   1925078388, 2162078206, 2614888103, 3248222580, 3835390401, 4022224774,
   264347078, 604807628, 770255983, 1249150122, 1555081692, 1996064986,
   2554220882, 2821834349, 2952996808, 3210313671, 3336571891, 3584528711,
   113926993, 338241895, 666307205, 773529912, 1294757372, 1396182291,
   1695183700, 1986661051, 2177026350, 2456956037, 2730485921, 2820302411,
   3259730800, 3345764771, 3516065817, 3600352804, 4094571909, 275423344,
   430227734, 506948616, 659060556, 883997877, 958139571, 1322822218,
   1537002063, 1747873779, 1955562222, 2024104815, 2227730452, 2361852424,
   2428436474, 2756734187, 3204031479, 3329325298]

/-- SHA-256 initial hash state. -/
def sha256H0 : List Nat :=
  [1779033703, 3144134277, 1013904242, 2773480762, 1359893119, 2600822924,
   528734635, 1541459225]

/-- Big-endian byte expansion of `n` into `k` bytes. -/
def natToBytesBE (k n : Nat) : List Nat :=
  (List.range k).map (fun i => (n >>> (8 * (k - 1 - i))) % 256)

/-- SHA-256 message padding: `0x80`, zeros, then the bit length on 8 bytes. -/
def sha256Pad (msg : List Nat) : List Nat :=
  msg ++ 128 :: List.replicate ((119 - msg.length % 64) % 64) 0
    ++ natToBytesBE 8 (8 * msg.length)

/-- Split a byte list into 64-byte blocks (`fuel` bounds the recursion). -/
def chunks64 : Nat → List Nat → List (List Nat)
  | 0, _ => []
  | _, [] => []
  | fuel + 1, l => l.take 64 :: chunks64 fuel (l.drop 64)

/-- First 16 message-schedule words of a 64-byte block. -/
def sha256W0 (block : List Nat) : List Nat :=
  (List.range 16).map (fun i =>
    (block.getD (4 * i) 0) <<< 24 + (block.getD (4 * i + 1) 0) <<< 16
      + (block.getD (4 * i + 2) 0) <<< 8 + block.getD (4 * i + 3) 0)

/-- Extend the message schedule from 16 to 64 words. -/
def sha256Extend (w0 : List Nat) : List Nat :=
  (List.range 48).foldl (fun w _ =>
    let j := w.length
    let s0 := (rotr32 (w.getD (j - 15) 0) 7) ^^^ (rotr32 (w.getD (j - 15) 0) 18)
      ^^^ (w.getD (j - 15) 0 >>> 3)
    let s1 := (rotr32 (w.getD (j - 2) 0) 17) ^^^ (rotr32 (w.getD (j - 2) 0) 19)
      ^^^ (w.getD (j - 2) 0 >>> 10)
    w ++ [(w.getD (j - 16) 0 + s0 + w.getD (j - 7) 0 + s1) % 4294967296]) w0

/-- One SHA-256 compression round over the 8-word state. -/
def sha256Round (w : List Nat) (st : List Nat) (i : Nat) : List Nat :=
  match st with
  | [a, b, c, d, e, f, g, h] =>
      let S1 := (rotr32 e 6) ^^^ (rotr32 e 11) ^^^ (rotr32 e 25)
      let ch := (e &&& f) ^^^ ((e ^^^ 4294967295) &&& g)
      let t1 := (h + S1 + ch + sha256K.getD i 0 + w.getD i 0) % 4294967296
      let S0 := (rotr32 a 2) ^^^ (rotr32 a 13) ^^^ (rotr32 a 22)
      let mj := (a &&& b) ^^^ (a &&& c) ^^^ (b &&& c)
      let t2 := (S0 + mj) % 4294967296
      [(t1 + t2) % 4294967296, a, b, c, (d + t1) % 4294967296, e, f, g]
  | st => st

/-- SHA-256 compression of one 64-byte block into the running state. -/
def sha256Compress (h : List Nat) (block : List Nat) : List Nat :=
  let w := sha256Extend (sha256W0 block)
  let fin := (List.range 64).foldl (sha256Round w) h
  (h.zip fin).map (fun p => (p.1 + p.2) % 4294967296)

/-- SHA-256 of a byte list, as a 32-byte list. -/
def sha256 (msg : List Nat) : List Nat :=
  let padded := sha256Pad msg
  let hfin := (chunks64 padded.length padded).foldl sha256Compress sha256H0
  hfin.foldr (fun h acc => natToBytesBE 4 h ++ acc) []

/-! ## AddressCodec, modelled from the spec

The repository derives addresses by calling `publicKeyToAddress` from the
external `@stacks/transactions` library; only its callers (`getAddress`,
`getAddressFromPublicKey`) live in this repository.  The definitions below
are modelled from the spec (§4.2 AddressCodec): hash160 the public key,
prepend the version byte chosen by the network, append the leading 4 bytes of
a double SHA-256 of version+hash as a checksum, render in the chain's
base-32 alphabet, and carry the chain's literal address-family markers
(`'S'` plus the base-32 digit of the version byte, i.e. `"ST"` for testnet
and `"SP"` for mainnet, per the repository's own doc comments). -/

/-- Modelled from the spec: the chain's base-32 ("c32") digit alphabet,
a chain-defined constant (spec §9). -/
def c32Alphabet : List Char := "0123456789ABCDEFGHJKMNPQRSTVWXYZ".toList

/-- Digit character of the c32 alphabet. -/
def c32Digit (n : Nat) : Char := c32Alphabet.getD n '0'

/-- Modelled from the spec: the single-signature address version byte per
network (chain-defined constants: 26 for testnet, 22 for mainnet). -/
def addressVersion (n : Network) : Nat :=
  match n with
  | .testnet => 26
  | .mainnet => 22

/-- Big-endian value of a byte list. -/
def bytesToNat (bs : List Nat) : Nat :=
  bs.foldl (fun a b => a * 256 + b) 0

/-- Base-32 digit expansion of `n` (`fuel` bounds the recursion). -/
def natToC32 : Nat → Nat → List Char → List Char
  | 0, _, acc => acc
  | fuel + 1, n, acc =>
      if n = 0 then acc else natToC32 fuel (n / 32) (c32Digit (n % 32) :: acc)

/-- Modelled from the spec: c32 rendering of a byte string (base-32 digits of
its big-endian value, one leading `'0'` digit per leading zero byte). -/
def c32encode (bs : List Nat) : List Char :=
  let n := bytesToNat bs
  List.replicate (bs.takeWhile (· = 0)).length '0' ++ natToC32 (8 * bs.length) n []

/-- Modelled from the spec: 4-byte c32check checksum — the leading bytes of a
double SHA-256 over the version byte followed by the data. -/
def c32Checksum (version : Nat) (data : List Nat) : List Nat :=
  (sha256 (sha256 (version :: data))).take 4

/-- Modelled from the spec: a c32check address — the literal marker `'S'`,
the c32 digit of the version byte, then the c32 rendering of hash160 plus
checksum.  This stands in for the external library's `c32address`. -/
def c32address (version : Nat) (hash160Bytes : List Nat) : List Char :=
  'S' :: c32Digit version :: c32encode (hash160Bytes ++ c32Checksum version hash160Bytes)

/-- Modelled from the spec: `deriveAddress(publicKey, network)` — the external
library's `publicKeyToAddress`.  The 20-byte hash160 of the public key
(SHA-256 then RIPEMD-160, computed inside the external library) is passed in
as a function parameter. -/
def deriveAddress (hash160 : List Char → List Nat) (publicKey : List Char)
    (network : Network) : List Char :=
  c32address (addressVersion network) (hash160 publicKey)

/-! ## Data model of the signer (from `src/types.ts` and `index.ts`) -/

/-- Raw signature triple returned by the Turnkey client
(`{v: string, r: string, s: string}`, `src/types.ts`). -/
structure RawSig where
  v : List Char
  r : List Char
  s : List Char
deriving DecidableEq, Repr

/-- Request record passed to `client.signRawPayload`
(`signHash`, index.ts; field list from `TurnkeySignerClient`, types.ts). -/
structure SignRequest where
  organizationId : Option (List Char)
  signWith : List Char
  payload : List Char
  encoding : List Char
  hashFunction : List Char
deriving DecidableEq, Repr

/-- Unsigned STX token transfer, at the granularity of the fields this
repository supplies to `makeUnsignedSTXTokenTransfer` and later reads back
(`transaction.auth.spendingCondition.fee` / `.nonce`); `signature` models the
single-sig spending condition's signature field, `none` until attached. -/
structure UnsignedTx where
  recipient : List Char
  amount : Int
  publicKey : List Char
  nonce : Int
  fee : Int
  network : Network
  memo : Option (List Char)
  signature : Option (List Char)
deriving DecidableEq, Repr

/-- Embeds `STXTransferParams` (`src/types.ts`). -/
structure STXTransferParams where
  recipient : List Char
  amount : Int
  nonce : Option Int
  fee : Option Int
  memo : Option (List Char)
  network : Option Network
deriving DecidableEq, Repr

/-- Embeds `SignedTransactionResult` (`src/types.ts`). -/
structure SignedTransactionResult where
  transaction : UnsignedTx
  senderAddress : List Char
  nonce : Int
  fee : Int
deriving DecidableEq, Repr

/-- Embeds `TurnkeySignerConfig` (`src/types.ts`, `src/unnamed/part_001`:
`organizationId` is optional — omitted for browser clients). -/
structure TurnkeySignerConfig where
  organizationId : Option (List Char)
  publicKey : List Char
  network : Option Network
deriving DecidableEq, Repr

/-- The `TurnkeySigner` instance state: the fields the constructor stores
(index.ts lines 155–182). -/
structure TurnkeySigner where
  organizationId : Option (List Char)
  network : Network
  compressedPublicKey : List Char
deriving DecidableEq, Repr

/-- HTTP response for the nonce fetch, at the granularity `fetchNonce` reads:
the status code and the optional `possible_next_nonce` field of the JSON
body. -/
structure HttpResponse where
  status : Nat
  possibleNextNonce : Option Int
deriving DecidableEq, Repr

/-- Embeds the `fetch` API's `Response.ok`: status in the 2xx range. -/
def HttpResponse.ok (r : HttpResponse) : Bool :=
  200 ≤ r.status && r.status ≤ 299

/-- A network call performed during `signSTXTransfer`, recorded in a trace:
the nonce-service GET (by URL) or the Turnkey `signRawPayload` call. -/
inductive NetCall where
  | nonceFetch (url : List Char)
  | signCall (req : SignRequest)
deriving DecidableEq, Repr

/-- Environment of external collaborators: the `@stacks/transactions`
functions the repository imports, the HTTP fetch, and the Turnkey client.
`sigHashPreSign` stands for the composite
`sigHashPreSign(new TransactionSigner(tx).sigHash, tx.auth.authType,
tx.auth.spendingCondition.fee, tx.auth.spendingCondition.nonce)`, a pure
function of the unsigned transaction.  `signRawPayload` either returns a
`(v, r, s)` triple or throws; a thrown error is modelled by its message. -/
structure SignEnv where
  validateStacksAddress : List Char → Bool
  publicKeyToAddress : List Char → Network → List Char
  fetchResponse : List Char → HttpResponse
  sigHashPreSign : UnsignedTx → List Char
  signRawPayload : SignRequest → Except (List Char) RawSig

/-- Embeds `DEFAULT_FEE = 180n` (index.ts). -/
def DEFAULT_FEE : Int := 180

/-- Embeds `API_ENDPOINTS` (index.ts). -/
def API_ENDPOINTS (n : Network) : List Char :=
  match n with
  | .testnet => "https://api.testnet.hiro.so".toList
  | .mainnet => "https://api.hiro.so".toList

/-- The URL `fetchNonce` builds:
`` `${baseUrl}/extended/v1/address/${address}/nonces` ``. -/
def fetchNonceUrl (address : List Char) (network : Network) : List Char :=
  API_ENDPOINTS network ++ "/extended/v1/address/".toList ++ address
    ++ "/nonces".toList

/-- Embeds the private `fetchNonce` (index.ts): GET the nonces endpoint, fail
on a non-2xx status, otherwise return `BigInt(data.possible_next_nonce ?? 0)`.
The returned trace records the HTTP call. -/
def fetchNonce (env : SignEnv) (address : List Char) (network : Network) :
    Except SignerError Int × List NetCall :=
  let url := fetchNonceUrl address network
  let res := env.fetchResponse url
  if !res.ok then
    (.error (.nonceFetchFailed res.status), [.nonceFetch url])
  else
    (.ok ((res.possibleNextNonce).getD 0), [.nonceFetch url])

/-- Embeds the construction of the signer (`constructor`, index.ts): store the
client/organization/network configuration and the validated public key (the
constructor throws if validation fails). -/
def mkTurnkeySigner (config : TurnkeySignerConfig) : Except SignerError TurnkeySigner :=
  match validateCompressedPublicKey config.publicKey with
  | .error e => .error e
  | .ok k =>
      .ok { organizationId := config.organizationId,
            network := config.network.getD .testnet,
            compressedPublicKey := k }

/-- Embeds `getPublicKey` (index.ts). -/
def getPublicKey (s : TurnkeySigner) : List Char :=
  s.compressedPublicKey

/-- Embeds `getAddress` (index.ts): `publicKeyToAddress(this.compressedPublicKey,
network ?? this.network)`. -/
def getAddress (env : SignEnv) (s : TurnkeySigner) (network : Option Network) : List Char :=
  env.publicKeyToAddress s.compressedPublicKey (network.getD s.network)

/-- Embeds the standalone `getAddressFromPublicKey` (index.ts): validate, then
`publicKeyToAddress`. -/
def getAddressFromPublicKey (env : SignEnv) (publicKey : List Char) (network : Network) :
    Except SignerError (List Char) :=
  match validateCompressedPublicKey publicKey with
  | .error e => .error e
  | .ok cleaned => .ok (env.publicKeyToAddress cleaned network)

/-- The request record built inside `signHash` (index.ts lines 323–332):
`organizationId` is attached only when truthy (absent or the empty string are
both falsy in TS), the payload is the hash with a `0x` prefix, and the
encoding and hash-function fields are the fixed literals. -/
def signRawPayloadRequest (st : TurnkeySigner) (hash : List Char) : SignRequest :=
  { organizationId :=
      match st.organizationId with
      | some o => if o.isEmpty then none else some o
      | none => none,
    signWith := st.compressedPublicKey,
    payload := '0' :: 'x' :: hash,
    encoding := "PAYLOAD_ENCODING_HEXADECIMAL".toList,
    hashFunction := "HASH_FUNCTION_NO_OP".toList }

/-- The needle of the one enrichment case in `signHash`'s catch block. -/
def resourceNotFoundNeedle : List Char :=
  "Could not find any resource to sign with".toList

/-- The organization line of the enriched message:
`this.organizationId ?? "(not set — using client session)"`. -/
def orgIdDisplay (orgId : Option (List Char)) : List Char :=
  match orgId with
  | some o => o
  | none => "(not set — using client session)".toList

/-- The enriched error message built in `signHash`'s catch block (index.ts
lines 342–351), as the concatenation the TS template literal produces. -/
def enrichedSigningErrorMsg (pk : List Char) (orgId : Option (List Char))
    (orig : List Char) : List Char :=
  "Turnkey could not find a signing key.\n  signWith (publicKey): ".toList
    ++ pk
    ++ "\n  organizationId:      ".toList
    ++ orgIdDisplay orgId
    ++ "\n\nPossible causes:\n  1. If using server SDK: the organizationId may not match the org that owns the key.\n  2. If using browser client: ensure the user is authenticated and has a wallet.\n  3. The publicKey casing or format does not match what Turnkey has stored.\n\nOriginal error: ".toList
    ++ orig

/-- Embeds the private `signHash` (index.ts, `src/unnamed/part_000` lines
316–356): build the request, call `client.signRawPayload`, and on failure
re-throw — enriching the message only when it contains the
"Could not find any resource to sign with" needle.  The older copy in
`src/src/index.ts` has no catch block (no enrichment case).  The returned
trace records the signing call. -/
def signHash (st : TurnkeySigner) (env : SignEnv) (hash : List Char) :
    Except SignerError RawSig × List NetCall :=
  let request := signRawPayloadRequest st hash
  match env.signRawPayload request with
  | .ok sig => (.ok sig, [.signCall request])
  | .error msg =>
      if containsSub msg resourceNotFoundNeedle then
        (.error (.signingFailed
            (enrichedSigningErrorMsg st.compressedPublicKey st.organizationId msg)),
          [.signCall request])
      else
        (.error (.signingFailed msg), [.signCall request])

/-- Embeds `signSTXTransfer` (index.ts, `src/unnamed/part_000` lines
220–289): validate recipient and amount, derive the sender address, resolve
nonce (fetching it when absent) and fee, build the unsigned transfer, hash it,
sign the hash with Turnkey, normalize and length-check the `v‖r‖s` signature,
and attach it (`createMessageSignature(vrs)` wraps the hex unchanged; the
attached signature is modelled by the `vrs` hex itself).  The second component
is the trace of network calls made, in order. -/
def signSTXTransfer (st : TurnkeySigner) (env : SignEnv) (params : STXTransferParams) :
    Except SignerError SignedTransactionResult × List NetCall :=
  let network := params.network.getD st.network
  if env.validateStacksAddress params.recipient = false then
    (.error (.invalidRecipient params.recipient), [])
  else if params.amount ≤ 0 then
    (.error .invalidAmount, [])
  else
    let senderAddress := getAddress env st (some network)
    let fetched : Except SignerError Int × List NetCall :=
      match params.nonce with
      | some n => (.ok n, [])
      | none => fetchNonce env senderAddress network
    match fetched with
    | (.error e, calls) => (.error e, calls)
    | (.ok nonce, calls) =>
        let txFee := params.fee.getD DEFAULT_FEE
        let transaction : UnsignedTx :=
          { recipient := params.recipient,
            amount := params.amount,
            publicKey := st.compressedPublicKey,
            nonce := nonce,
            fee := txFee,
            network := network,
            memo := params.memo,
            signature := none }
        let preSignHash := env.sigHashPreSign transaction
        match signHash st env preSignHash with
        | (.error e, calls2) => (.error e, calls ++ calls2)
        | (.ok signature, calls2) =>
            match normalizeRecoveryByte signature.v with
            | .error e => (.error e, calls ++ calls2)
            | .ok v =>
                let r := padStart signature.r 64 '0'
                let s := padStart signature.s 64 '0'
                let vrs := v ++ r ++ s
                if vrs.length ≠ 130 then
                  (.error (.invalidSignatureLength vrs.length), calls ++ calls2)
                else
                  (.ok { transaction := { transaction with signature := some vrs },
                         senderAddress := senderAddress,
                         nonce := nonce,
                         fee := txFee },
                    calls ++ calls2)

/-! ## Derived notation used in the theorems -/

/-- The unsigned transaction `signSTXTransfer` builds for the given
parameters and resolved nonce (the record passed to
`makeUnsignedSTXTokenTransfer`). -/
def builtTx (st : TurnkeySigner) (params : STXTransferParams) (nonce : Int) : UnsignedTx :=
  { recipient := params.recipient,
    amount := params.amount,
    publicKey := st.compressedPublicKey,
    nonce := nonce,
    fee := params.fee.getD DEFAULT_FEE,
    network := params.network.getD st.network,
    memo := params.memo,
    signature := none }

/-- The nonce-service URL a `signSTXTransfer` call fetches. -/
def nonceUrl (st : TurnkeySigner) (env : SignEnv) (params : STXTransferParams) : List Char :=
  fetchNonceUrl (getAddress env st (some (params.network.getD st.network)))
    (params.network.getD st.network)

/-! ## Decidability and fixtures for concrete evaluation -/

instance {ε α : Type} [DecidableEq ε] [DecidableEq α] : DecidableEq (Except ε α) := fun a b =>
  match a, b with
  | .ok x, .ok y =>
      if h : x = y then .isTrue (by rw [h]) else .isFalse (by simp [h])
  | .error x, .error y =>
      if h : x = y then .isTrue (by rw [h]) else .isFalse (by simp [h])
  | .ok _, .error _ => .isFalse (by simp)
  | .error _, .ok _ => .isFalse (by simp)

/-- The hexadecimal digit characters (both cases). -/
def hexDigitChars : List Char := "0123456789abcdefABCDEF".toList

/-- The lowercase hexadecimal digit characters. -/
def lowerHexChars : List Char := "0123456789abcdef".toList

/-- A concrete 66-character compressed key in canonical form. -/
def stubKey : List Char := '0' :: '2' :: List.replicate 64 'a'

/-- A concrete raw signature with short `r` and `s` hex strings. -/
def stubSig : RawSig := { v := "01".toList, r := "ab".toList, s := "cd".toList }

/-- A concrete environment in which every external collaborator returns a
fixed value: the chain validator accepts, the nonce service answers 200 with
nonce 7, the hasher returns the hex string `abcd`, and the Turnkey client
returns `stubSig`. -/
def stubEnv : SignEnv :=
  { validateStacksAddress := fun _ => true,
    publicKeyToAddress := fun _ _ => "STSENDER".toList,
    fetchResponse := fun _ => { status := 200, possibleNextNonce := some 7 },
    sigHashPreSign := fun _ => "abcd".toList,
    signRawPayload := fun _ => .ok stubSig }

/-- A concrete signer using `stubKey`. -/
def stubSigner : TurnkeySigner :=
  { organizationId := some "org".toList,
    network := .testnet,
    compressedPublicKey := stubKey }

/-- Concrete well-formed transfer parameters. -/
def stubParams : STXTransferParams :=
  { recipient := "STRECIP".toList,
    amount := 1000000,
    nonce := some 5,
    fee := some 200,
    memo := none,
    network := none }

/-- The signing request `signSTXTransfer stubSigner stubEnv stubParams`
issues. -/
def stubRequest : SignRequest :=
  signRawPayloadRequest stubSigner ("abcd".toList)

/-- The 130-character signature assembled from `stubSig`. -/
def stubVrs : List Char :=
  ('0' :: '1' :: []) ++ padStart ("ab".toList) 64 '0' ++ padStart ("cd".toList) 64 '0'

/-- The result `signSTXTransfer stubSigner stubEnv stubParams` returns. -/
def stubResult : SignedTransactionResult :=
  { transaction := { builtTx stubSigner stubParams 5 with signature := some stubVrs },
    senderAddress := "STSENDER".toList,
    nonce := 5,
    fee := 200 }

/-- `stubEnv` with the chain address validator rejecting every input, as the
real `validateStacksAddress` does on a malformed address. -/
def rejectAllEnv : SignEnv :=
  { stubEnv with validateStacksAddress := fun _ => false }

/-- `stubParams` with a zero amount. -/
def zeroAmountParams : STXTransferParams :=
  { stubParams with amount := 0 }

/-- `stubEnv` with a Turnkey client that always throws the
"Could not find any resource to sign with" error. -/
def resourceErrEnv : SignEnv :=
  { stubEnv with signRawPayload := fun _ => .error resourceNotFoundNeedle }

/-- A constant hash160 function for concrete address derivations. -/
def constHash160 : List Char → List Nat := fun _ => List.replicate 20 0

/-- `stubEnv` whose address derivation is the spec-modelled `deriveAddress`
over `constHash160`. -/
def addrEnv : SignEnv :=
  { stubEnv with publicKeyToAddress := deriveAddress constHash160 }

/-- `stubEnv` whose nonce service answers 200 with a JSON body lacking the
`possible_next_nonce` field. -/
def noNonceEnv : SignEnv :=
  { stubEnv with fetchResponse := fun _ => { status := 200, possibleNextNonce := none } }

/-- `stubParams` without a caller-supplied nonce. -/
def noncelessParams : STXTransferParams :=
  { stubParams with nonce := none }

/-- A configuration with a `0x`-prefixed mixed-case key. -/
def mixedCaseConfig : TurnkeySignerConfig :=
  { organizationId := none,
    publicKey := '0' :: 'x' :: '0' :: '2'
      :: (List.replicate 32 'A' ++ List.replicate 32 'b'),
    network := none }

/-- The signer that `mkTurnkeySigner mixedCaseConfig` produces. -/
def mixedCaseSigner : TurnkeySigner :=
  { organizationId := none,
    network := .testnet,
    compressedPublicKey := '0' :: '2'
      :: (List.replicate 32 'a' ++ List.replicate 32 'b') }

/-! ## Helper lemmas -/

/-- Lower-casing a hexadecimal digit yields a lowercase hexadecimal digit. -/
theorem toLowerChar_hex_lower {c : Char} (hc : c ∈ hexDigitChars) :
    toLowerChar c ∈ lowerHexChars := by
  fin_cases hc <;> decide

/-- A recovery string parsing to 0 normalizes to `"00"`. -/
theorem normalizeRecoveryByte_zero {v : List Char} (h : parseIntHex v = some 0) :
    normalizeRecoveryByte v = .ok ('0' :: '0' :: []) := by
  simp [normalizeRecoveryByte, h]

/-- A recovery string parsing to 1 normalizes to `"01"`. -/
theorem normalizeRecoveryByte_one {v : List Char} (h : parseIntHex v = some 1) :
    normalizeRecoveryByte v = .ok ('0' :: '1' :: []) := by
  simp [normalizeRecoveryByte, h]

/-- Padding a string no longer than the target length yields the target
length. -/
theorem padStart_length_of_le {s : List Char} {n : Nat} {c : Char}
    (h : s.length ≤ n) : (padStart s n c).length = n := by
  simp [padStart]
  omega

/-- `signHash` performs exactly one signing call, whatever the client
returns. -/
theorem signHash_trace (st : TurnkeySigner) (env : SignEnv) (hash : List Char) :
    (signHash st env hash).2 = [.signCall (signRawPayloadRequest st hash)] := by
  rcases he : env.signRawPayload (signRawPayloadRequest st hash) with m | s <;>
    simp only [signHash, he]
  split <;> rfl

/-- Characterization of a `signSTXTransfer` run once recipient, amount, nonce
and the client's answer are pinned. -/
theorem signSTXTransfer_run (st : TurnkeySigner) (env : SignEnv)
    (params : STXTransferParams) (sig : RawSig) (n : Int)
    (hvalid : env.validateStacksAddress params.recipient = true)
    (hamt : 0 < params.amount)
    (hnonce : params.nonce = some n)
    (hsig : ∀ req, env.signRawPayload req = .ok sig) :
    signSTXTransfer st env params =
      (match normalizeRecoveryByte sig.v with
       | .error e =>
          (.error e,
           [.signCall (signRawPayloadRequest st (env.sigHashPreSign (builtTx st params n)))])
       | .ok v =>
          let vrs := v ++ padStart sig.r 64 '0' ++ padStart sig.s 64 '0'
          if vrs.length ≠ 130 then
            (.error (.invalidSignatureLength vrs.length),
             [.signCall (signRawPayloadRequest st (env.sigHashPreSign (builtTx st params n)))])
          else
            (.ok { transaction := { builtTx st params n with signature := some vrs },
                   senderAddress := getAddress env st (some (params.network.getD st.network)),
                   nonce := n,
                   fee := params.fee.getD DEFAULT_FEE },
             [.signCall (signRawPayloadRequest st (env.sigHashPreSign (builtTx st params n)))])) := by
  unfold signSTXTransfer
  rw [if_neg (by simp [hvalid]), if_neg (not_le.mpr hamt), hnonce]
  simp only [signHash, hsig, builtTx, List.nil_append]

/-! ## C1 — every signing request uses the no-op hash mode -/

/-- C1: any signing request that `signSTXTransfer` issues (i.e. any
`signCall` in its trace) carries `hashFunction = "HASH_FUNCTION_NO_OP"`,
`encoding = "PAYLOAD_ENCODING_HEXADECIMAL"`, `signWith` equal to the signer's
stored compressed public key, and a payload that is exactly `0x` followed by
the pre-sign hash of the transaction built from the call's parameters; no
request with any other hash mode is ever issued. -/
theorem signRequest_always_no_op_hash (st : TurnkeySigner) (env : SignEnv)
    (params : STXTransferParams) (req : SignRequest)
    (hmem : NetCall.signCall req ∈ (signSTXTransfer st env params).2) :
    req.hashFunction = "HASH_FUNCTION_NO_OP".toList
    ∧ req.encoding = "PAYLOAD_ENCODING_HEXADECIMAL".toList
    ∧ req.signWith = st.compressedPublicKey
    ∧ ∃ nonceUsed : Int,
        req.payload = '0' :: 'x' :: env.sigHashPreSign (builtTx st params nonceUsed) := by
  simp only [signSTXTransfer] at hmem
  split at hmem
  · simp at hmem
  · split at hmem
    · simp at hmem
    · split at hmem
      · rename_i fetched e calls heq
        split at heq
        · simp at heq
        · simp only [fetchNonce] at heq
          split at heq
          · simp only [Prod.mk.injEq] at heq
            rw [← heq.2] at hmem
            simp at hmem
          · simp at heq
      · rename_i fetched nonce calls heq
        have hcalls : ∀ r, NetCall.signCall r ∉ calls := by
          split at heq
          · simp only [Prod.mk.injEq] at heq
            rw [← heq.2]
            simp
          · simp only [fetchNonce] at heq
            split at heq
            · simp at heq
            · simp only [Prod.mk.injEq] at heq
              rw [← heq.2]
              simp
        rcases hsh : signHash st env (env.sigHashPreSign
            { recipient := params.recipient, amount := params.amount,
              publicKey := st.compressedPublicKey, nonce := nonce,
              fee := params.fee.getD DEFAULT_FEE,
              network := params.network.getD st.network,
              memo := params.memo, signature := none }) with ⟨sres, calls2⟩
        have hc2 : calls2 = _ :=
          (congrArg Prod.snd hsh).symm.trans (signHash_trace st env _)
        rw [hsh] at hmem
        have hend : NetCall.signCall req ∈ calls ++ calls2 →
            req.hashFunction = "HASH_FUNCTION_NO_OP".toList
            ∧ req.encoding = "PAYLOAD_ENCODING_HEXADECIMAL".toList
            ∧ req.signWith = st.compressedPublicKey
            ∧ ∃ nonceUsed : Int,
                req.payload = '0' :: 'x' :: env.sigHashPreSign (builtTx st params nonceUsed) := by
          intro hm
          rcases List.mem_append.mp hm with hin | hin
          · exact absurd hin (hcalls req)
          · rw [hc2] at hin
            simp only [List.mem_singleton, NetCall.signCall.injEq] at hin
            subst hin
            exact ⟨rfl, rfl, rfl, nonce, rfl⟩
        rcases sres with e2 | sigv
        · exact hend hmem
        · rcases hnr : normalizeRecoveryByte sigv.v with e3 | v2 <;>
            simp only [hnr] at hmem
          · exact hend hmem
          · split at hmem
            · exact hend hmem
            · exact hend hmem

set_option maxRecDepth 100000 in
/-- C1 witness: the request of a concrete run has the required fields. -/
theorem signRequest_always_no_op_hash_witness :
    NetCall.signCall stubRequest ∈ (signSTXTransfer stubSigner stubEnv stubParams).2
    ∧ (stubRequest.hashFunction = "HASH_FUNCTION_NO_OP".toList
      ∧ stubRequest.encoding = "PAYLOAD_ENCODING_HEXADECIMAL".toList
      ∧ stubRequest.signWith = stubSigner.compressedPublicKey
      ∧ ∃ nonceUsed : Int,
          stubRequest.payload
            = '0' :: 'x' :: stubEnv.sigHashPreSign (builtTx stubSigner stubParams nonceUsed)) :=
  ⟨by decide,
   signRequest_always_no_op_hash stubSigner stubEnv stubParams stubRequest (by decide)⟩

/-! ## C2 — v‖r‖s assembly, padding and the 130-character length gate -/

/-- C2: when the client's raw signature has a `v` parsing to 0 or 1, the
normalized `v` is the single byte `"00"` or `"01"`; if `r` and `s` are at
most 64 hex characters they are left-zero-padded to exactly 64 and the
attached signature is exactly `v ‖ r ‖ s` at 130 hex characters; if the
concatenation has any other length (e.g. `r` or `s` longer than 64), the call
fails with the invalid-signature-length error and no signature is attached. -/
theorem signature_assembly_vrs (st : TurnkeySigner) (env : SignEnv)
    (params : STXTransferParams) (sig : RawSig) (n : Int)
    (hvalid : env.validateStacksAddress params.recipient = true)
    (hamt : 0 < params.amount)
    (hnonce : params.nonce = some n)
    (hsig : ∀ req, env.signRawPayload req = .ok sig)
    (hv : parseIntHex sig.v = some 0 ∨ parseIntHex sig.v = some 1) :
    ∃ v2, normalizeRecoveryByte sig.v = .ok v2
      ∧ (v2 = ('0' :: '0' :: []) ∨ v2 = ('0' :: '1' :: []))
      ∧ (sig.r.length ≤ 64 → sig.s.length ≤ 64 →
          (v2 ++ padStart sig.r 64 '0' ++ padStart sig.s 64 '0').length = 130
          ∧ (signSTXTransfer st env params).1
              = .ok { transaction := { builtTx st params n with
                        signature := some (v2 ++ padStart sig.r 64 '0' ++ padStart sig.s 64 '0') },
                      senderAddress := getAddress env st (some (params.network.getD st.network)),
                      nonce := n,
                      fee := params.fee.getD DEFAULT_FEE })
      ∧ ((v2 ++ padStart sig.r 64 '0' ++ padStart sig.s 64 '0').length ≠ 130 →
          (signSTXTransfer st env params).1
            = .error (.invalidSignatureLength
                (v2 ++ padStart sig.r 64 '0' ++ padStart sig.s 64 '0').length)) := by
  have hrun := signSTXTransfer_run st env params sig n hvalid hamt hnonce hsig
  have hnorm : ∃ v2, normalizeRecoveryByte sig.v = .ok v2
      ∧ (v2 = ('0' :: '0' :: []) ∨ v2 = ('0' :: '1' :: [])) := by
    rcases hv with h | h
    · exact ⟨_, normalizeRecoveryByte_zero h, Or.inl rfl⟩
    · exact ⟨_, normalizeRecoveryByte_one h, Or.inr rfl⟩
  rcases hnorm with ⟨v2, hn2, hv2⟩
  refine ⟨v2, hn2, hv2, ?_, ?_⟩
  · intro hr hs
    have hlen : (v2 ++ padStart sig.r 64 '0' ++ padStart sig.s 64 '0').length = 130 := by
      have h2 : v2.length = 2 := by rcases hv2 with rfl | rfl <;> rfl
      simp [List.length_append, h2, padStart_length_of_le hr, padStart_length_of_le hs]
    refine ⟨hlen, ?_⟩
    rw [hrun, hn2]
    simp only
    rw [if_neg (by rw [hlen]; simp)]
  · intro hlen
    rw [hrun, hn2]
    simp only
    rw [if_pos hlen]

/-- C2 witness: a concrete run with short `r`/`s` assembles a 130-character
`v‖r‖s` signature. -/
theorem signature_assembly_vrs_witness :
    (stubEnv.validateStacksAddress stubParams.recipient = true
      ∧ (0 : Int) < stubParams.amount
      ∧ stubParams.nonce = some 5
      ∧ stubEnv.signRawPayload stubRequest = .ok stubSig
      ∧ parseIntHex stubSig.v = some 1)
    ∧ (∃ v2, normalizeRecoveryByte stubSig.v = .ok v2
      ∧ (v2 = ('0' :: '0' :: []) ∨ v2 = ('0' :: '1' :: []))
      ∧ (stubSig.r.length ≤ 64 → stubSig.s.length ≤ 64 →
          (v2 ++ padStart stubSig.r 64 '0' ++ padStart stubSig.s 64 '0').length = 130
          ∧ (signSTXTransfer stubSigner stubEnv stubParams).1
              = .ok { transaction := { builtTx stubSigner stubParams 5 with
                        signature := some (v2 ++ padStart stubSig.r 64 '0'
                          ++ padStart stubSig.s 64 '0') },
                      senderAddress :=
                        getAddress stubEnv stubSigner
                          (some (stubParams.network.getD stubSigner.network)),
                      nonce := 5,
                      fee := stubParams.fee.getD DEFAULT_FEE })
      ∧ ((v2 ++ padStart stubSig.r 64 '0' ++ padStart stubSig.s 64 '0').length ≠ 130 →
          (signSTXTransfer stubSigner stubEnv stubParams).1
            = .error (.invalidSignatureLength
                (v2 ++ padStart stubSig.r 64 '0' ++ padStart stubSig.s 64 '0').length))) :=
  ⟨⟨rfl, by decide, rfl, rfl, by decide⟩,
   signature_assembly_vrs stubSigner stubEnv stubParams stubSig 5
     rfl (by decide) rfl (fun _ => rfl) (Or.inr (by decide))⟩

/-! ## C3 — recipient/amount validation happens before any network call -/

/-- C3 counterexample: the claim says a call with `amount ≤ 0` fails with the
invalid-amount error, but on a call whose recipient is also malformed the code
checks the recipient first and fails with the invalid-recipient error
instead. -/
theorem early_validation_counterexample :
    (signSTXTransfer stubSigner rejectAllEnv zeroAmountParams).1
        = .error (.invalidRecipient zeroAmountParams.recipient)
    ∧ (signSTXTransfer stubSigner rejectAllEnv zeroAmountParams).1
        ≠ .error .invalidAmount := by
  decide

/-- C3 (amended): `signSTXTransfer` validates the recipient first and then the
amount; a malformed recipient fails with the invalid-recipient error and a
valid recipient with `amount ≤ 0` fails with the invalid-amount error, in both
cases with an empty network-call trace (no nonce fetch, no signing call). -/
theorem early_validation_order (st : TurnkeySigner) (env : SignEnv)
    (params : STXTransferParams) :
    (env.validateStacksAddress params.recipient = false →
      signSTXTransfer st env params = (.error (.invalidRecipient params.recipient), []))
    ∧ (env.validateStacksAddress params.recipient = true → params.amount ≤ 0 →
      signSTXTransfer st env params = (.error .invalidAmount, [])) := by
  constructor
  · intro h
    simp [signSTXTransfer, h]
  · intro h1 h2
    simp [signSTXTransfer, h1, h2]

/-- C3 witness: both branches of `early_validation_order` exercised on
concrete inputs. -/
theorem early_validation_order_witness :
    (rejectAllEnv.validateStacksAddress stubParams.recipient = false
      ∧ signSTXTransfer stubSigner rejectAllEnv stubParams
          = (.error (.invalidRecipient stubParams.recipient), []))
    ∧ (stubEnv.validateStacksAddress zeroAmountParams.recipient = true
      ∧ zeroAmountParams.amount ≤ 0
      ∧ signSTXTransfer stubSigner stubEnv zeroAmountParams
          = (.error .invalidAmount, [])) :=
  ⟨⟨by decide,
    (early_validation_order stubSigner rejectAllEnv stubParams).1 (by decide)⟩,
   ⟨by decide, by decide,
    (early_validation_order stubSigner stubEnv zeroAmountParams).2 (by decide) (by decide)⟩⟩

/-! ## C4 — key validation error taxonomy -/

/-- C4 counterexample: the claim says every input whose leading byte is not
`02`/`03` fails with the invalid-prefix error, but the length check runs
first: the input `"04"` has leading byte `04` yet fails with the
invalid-format (wrong-length) error. -/
theorem keyValidator_error_order_counterexample :
    validateCompressedPublicKey ('0' :: '4' :: []) = .error (.invalidKeyFormat 2)
    ∧ validateCompressedPublicKey ('0' :: '4' :: [])
        ≠ .error (.invalidKeyPrefix ('0' :: '4' :: [])) := by
  decide

/-- C4 (amended): the length check runs first — any input whose length after
stripping an optional `0x` is not 66 fails with the invalid-format error
(carrying that length); an input of length 66 whose first two (lower-cased)
characters are neither `02` nor `03` fails with the invalid-prefix error; the
two errors are distinct constructors, so callers can distinguish them. -/
theorem keyValidator_error_order (s : List Char) :
    ((strip0x s).length ≠ 66 →
      validateCompressedPublicKey s = .error (.invalidKeyFormat (strip0x s).length))
    ∧ ((strip0x s).length = 66 →
        ((strip0x s).map toLowerChar).take 2 ≠ ('0' :: '2' :: []) →
        ((strip0x s).map toLowerChar).take 2 ≠ ('0' :: '3' :: []) →
        validateCompressedPublicKey s =
          .error (.invalidKeyPrefix (((strip0x s).map toLowerChar).take 2)))
    ∧ ∀ l p, SignerError.invalidKeyFormat l ≠ SignerError.invalidKeyPrefix p := by
  refine ⟨fun h => ?_, fun h1 h2 h3 => ?_, fun l p h => by cases h⟩
  · simp [validateCompressedPublicKey, h]
  · simp [validateCompressedPublicKey, h1, h2, h3]

/-- C4 witness: the wrong-length branch on `"04"` and the wrong-leading-byte
branch on `"04" ++ 64 × "a"`. -/
theorem keyValidator_error_order_witness :
    ((strip0x ('0' :: '4' :: [])).length ≠ 66
      ∧ validateCompressedPublicKey ('0' :: '4' :: [])
          = .error (.invalidKeyFormat (strip0x ('0' :: '4' :: [])).length))
    ∧ ((strip0x ('0' :: '4' :: List.replicate 64 'a')).length = 66
      ∧ validateCompressedPublicKey ('0' :: '4' :: List.replicate 64 'a')
          = .error (.invalidKeyPrefix
              (((strip0x ('0' :: '4' :: List.replicate 64 'a')).map toLowerChar).take 2))) :=
  ⟨⟨by decide, (keyValidator_error_order ('0' :: '4' :: [])).1 (by decide)⟩,
   ⟨by decide,
    (keyValidator_error_order ('0' :: '4' :: List.replicate 64 'a')).2.1
      (by decide) (by decide) (by decide)⟩⟩

/-! ## C5 — the stored key is the canonical lowercase stripped key -/

/-- C5: for every configuration whose key (after the optional `0x`) is a hex
string accepted by the constructor, the key the signer stores and
`getPublicKey` returns is the input with the `0x` stripped and every character
lower-cased; it has exactly 66 characters, starts with `02` or `03`, and
consists of lowercase hex digits only. -/
theorem keyValidator_canonicalizes (config : TurnkeySignerConfig) (st : TurnkeySigner)
    (hhex : ∀ c ∈ strip0x config.publicKey, c ∈ hexDigitChars)
    (hmk : mkTurnkeySigner config = .ok st) :
    getPublicKey st = (strip0x config.publicKey).map toLowerChar
    ∧ (getPublicKey st).length = 66
    ∧ ((getPublicKey st).take 2 = ('0' :: '2' :: [])
        ∨ (getPublicKey st).take 2 = ('0' :: '3' :: []))
    ∧ ∀ c ∈ getPublicKey st, c ∈ lowerHexChars := by
  rcases hv : validateCompressedPublicKey config.publicKey with e | k
  · rw [mkTurnkeySigner, hv] at hmk; cases hmk
  · rw [mkTurnkeySigner, hv] at hmk
    simp only [Except.ok.injEq] at hmk
    subst hmk
    simp only [validateCompressedPublicKey] at hv
    split at hv
    · cases hv
    · split at hv
      · cases hv
      · rename_i hlen hpfx
        simp only [Except.ok.injEq] at hv
        rw [not_and_or, not_not, not_not] at hpfx
        push_neg at hlen
        constructor
        · simpa [getPublicKey] using hv.symm
        · refine ⟨?_, ?_, ?_⟩
          · simpa [getPublicKey, ← hv] using hlen
          · simpa [getPublicKey, ← hv] using hpfx
          · intro c hc
            simp only [getPublicKey] at hc
            rw [← hv] at hc
            rcases List.mem_map.mp hc with ⟨c0, hc0, rfl⟩
            exact toLowerChar_hex_lower (hhex c0 hc0)

/-- C5 witness: the mixed-case `0x`-prefixed key is accepted and
canonicalized. -/
theorem keyValidator_canonicalizes_witness :
    (∀ c ∈ strip0x mixedCaseConfig.publicKey, c ∈ hexDigitChars)
    ∧ mkTurnkeySigner mixedCaseConfig = .ok mixedCaseSigner
    ∧ (getPublicKey mixedCaseSigner = (strip0x mixedCaseConfig.publicKey).map toLowerChar
      ∧ (getPublicKey mixedCaseSigner).length = 66
      ∧ ((getPublicKey mixedCaseSigner).take 2 = ('0' :: '2' :: [])
          ∨ (getPublicKey mixedCaseSigner).take 2 = ('0' :: '3' :: []))
      ∧ ∀ c ∈ getPublicKey mixedCaseSigner, c ∈ lowerHexChars) :=
  ⟨by decide, by decide,
   keyValidator_canonicalizes mixedCaseConfig mixedCaseSigner (by decide) (by decide)⟩

/-! ## C6 — recovery-byte normalization -/

/-- C6 counterexample: the claim says every `v` string outside `{"0", "1"}`
is rejected, but `"00"` is outside that set and is accepted (it parses to 0). -/
theorem recoveryByte_counterexample :
    normalizeRecoveryByte ('0' :: '0' :: []) = .ok ('0' :: '0' :: [])
    ∧ ('0' :: '0' :: []) ≠ ('0' :: [])
    ∧ ('0' :: '0' :: []) ≠ ('1' :: []) := by
  decide

/-- C6 (amended): `v` is parsed with JavaScript `parseInt(v, 16)` semantics
(not as a membership test on the literal strings `"0"`/`"1"`): a parse to 0
yields `"00"`, a parse to 1 yields `"01"`, and a `NaN` or any other parsed
value is rejected with the invalid-recovery-byte error. -/
theorem recoveryByte_parseInt (v : List Char) :
    (parseIntHex v = none →
      normalizeRecoveryByte v = .error (.invalidRecoveryByte v))
    ∧ (parseIntHex v = some 0 → normalizeRecoveryByte v = .ok ('0' :: '0' :: []))
    ∧ (parseIntHex v = some 1 → normalizeRecoveryByte v = .ok ('0' :: '1' :: []))
    ∧ ∀ n : Int, parseIntHex v = some n → n ≠ 0 → n ≠ 1 →
        normalizeRecoveryByte v = .error (.invalidRecoveryByte v) := by
  refine ⟨fun h => ?_, fun h => ?_, fun h => ?_, fun n h hn0 hn1 => ?_⟩
  · simp [normalizeRecoveryByte, h]
  · simp [normalizeRecoveryByte, h]
  · simp [normalizeRecoveryByte, h]
  · simp [normalizeRecoveryByte, h, hn0, hn1]

/-- C6 witness: all four branches of `recoveryByte_parseInt` exercised — a
non-hex string, `"0"`, `"1"`, and `"ab"` (which parses to 171). -/
theorem recoveryByte_parseInt_witness :
    (parseIntHex ('z' :: []) = none
      ∧ normalizeRecoveryByte ('z' :: []) = .error (.invalidRecoveryByte ('z' :: [])))
    ∧ (parseIntHex ('0' :: []) = some 0
      ∧ normalizeRecoveryByte ('0' :: []) = .ok ('0' :: '0' :: []))
    ∧ (parseIntHex ('1' :: []) = some 1
      ∧ normalizeRecoveryByte ('1' :: []) = .ok ('0' :: '1' :: []))
    ∧ (parseIntHex ('a' :: 'b' :: []) = some 171
      ∧ normalizeRecoveryByte ('a' :: 'b' :: [])
          = .error (.invalidRecoveryByte ('a' :: 'b' :: []))) :=
  ⟨⟨by decide, (recoveryByte_parseInt ('z' :: [])).1 (by decide)⟩,
   ⟨by decide, (recoveryByte_parseInt ('0' :: [])).2.1 (by decide)⟩,
   ⟨by decide, (recoveryByte_parseInt ('1' :: [])).2.2.1 (by decide)⟩,
   ⟨by decide,
    (recoveryByte_parseInt ('a' :: 'b' :: [])).2.2.2 171 (by decide) (by decide) (by decide)⟩⟩

/-! ## C7 — nonce and fee pass through unchanged; fee defaults to 180 -/

/-- C7: on every successful `signSTXTransfer`, a caller-supplied nonce and
fee are returned unchanged and are the very values in the built transaction;
an omitted fee resolves to the fixed default `DEFAULT_FEE = 180` microSTX. -/
theorem nonce_fee_passthrough (st : TurnkeySigner) (env : SignEnv)
    (params : STXTransferParams) (res : SignedTransactionResult)
    (hok : (signSTXTransfer st env params).1 = .ok res) :
    DEFAULT_FEE = 180
    ∧ (∀ n, params.nonce = some n → res.nonce = n ∧ res.transaction.nonce = n)
    ∧ (∀ f, params.fee = some f → res.fee = f ∧ res.transaction.fee = f)
    ∧ (params.fee = none → res.fee = 180 ∧ res.transaction.fee = 180) := by
  simp only [signSTXTransfer] at hok
  split at hok
  · cases hok
  · split at hok
    · cases hok
    · split at hok
      · cases hok
      · split at hok
        · cases hok
        · split at hok
          · cases hok
          · split at hok
            · cases hok
            · simp only [Except.ok.injEq] at hok
              subst hok
              rename_i hva ham fetched nonce calls hnm x1 sigr calls2 hsh x2 k hnr hlen
              refine ⟨rfl, ?_, ?_, ?_⟩
              · intro n hn
                rw [hn] at hnm
                simp only [Prod.mk.injEq, Except.ok.injEq] at hnm
                obtain ⟨rfl, -⟩ := hnm
                exact ⟨rfl, rfl⟩
              · intro f hf
                rw [hf]
                exact ⟨rfl, rfl⟩
              · intro hf
                rw [hf]
                exact ⟨rfl, rfl⟩

set_option maxRecDepth 100000 in
/-- C7 witness: the concrete run returns the supplied nonce 5 and fee 200
unchanged. -/
theorem nonce_fee_passthrough_witness :
    (signSTXTransfer stubSigner stubEnv stubParams).1 = .ok stubResult
    ∧ (DEFAULT_FEE = 180
      ∧ (∀ n, stubParams.nonce = some n → stubResult.nonce = n
          ∧ stubResult.transaction.nonce = n)
      ∧ (∀ f, stubParams.fee = some f → stubResult.fee = f
          ∧ stubResult.transaction.fee = f)
      ∧ (stubParams.fee = none → stubResult.fee = 180
          ∧ stubResult.transaction.fee = 180)) :=
  ⟨by decide,
   nonce_fee_passthrough stubSigner stubEnv stubParams stubResult (by decide)⟩

/-! ## C8 — delegated-signing failures propagate, with one enrichment case -/

/-- C8: when the client's `signRawPayload` throws, `signHash` re-throws: the
trace still holds exactly one signing call (no retry) and the result is an
error (never swallowed); the message is re-thrown verbatim unless it contains
"Could not find any resource to sign with", in which case the thrown error is
the enriched message, which contains the public key used, the organization
display, and the original message. -/
theorem signing_failure_propagation (st : TurnkeySigner) (env : SignEnv)
    (hash msg : List Char)
    (herr : env.signRawPayload (signRawPayloadRequest st hash) = .error msg) :
    (signHash st env hash).2 = [.signCall (signRawPayloadRequest st hash)]
    ∧ (containsSub msg resourceNotFoundNeedle = false →
        (signHash st env hash).1 = .error (.signingFailed msg))
    ∧ (containsSub msg resourceNotFoundNeedle = true →
        (signHash st env hash).1 = .error (.signingFailed
          (enrichedSigningErrorMsg st.compressedPublicKey st.organizationId msg))
        ∧ (∃ a b, a ++ st.compressedPublicKey ++ b
            = enrichedSigningErrorMsg st.compressedPublicKey st.organizationId msg)
        ∧ (∃ a, a ++ msg
            = enrichedSigningErrorMsg st.compressedPublicKey st.organizationId msg)) := by
  refine ⟨signHash_trace st env hash, fun hc => ?_, fun hc => ⟨?_, ?_, ?_⟩⟩
  · simp only [signHash, herr, hc, Bool.false_eq_true, if_false]
  · simp only [signHash, herr, hc, if_true]
  · refine ⟨"Turnkey could not find a signing key.\n  signWith (publicKey): ".toList,
      "\n  organizationId:      ".toList
        ++ orgIdDisplay st.organizationId
        ++ "\n\nPossible causes:\n  1. If using server SDK: the organizationId may not match the org that owns the key.\n  2. If using browser client: ensure the user is authenticated and has a wallet.\n  3. The publicKey casing or format does not match what Turnkey has stored.\n\nOriginal error: ".toList
        ++ msg, ?_⟩
    simp only [enrichedSigningErrorMsg, List.append_assoc]
  · exact ⟨"Turnkey could not find a signing key.\n  signWith (publicKey): ".toList
      ++ st.compressedPublicKey
      ++ "\n  organizationId:      ".toList
      ++ orgIdDisplay st.organizationId
      ++ "\n\nPossible causes:\n  1. If using server SDK: the organizationId may not match the org that owns the key.\n  2. If using browser client: ensure the user is authenticated and has a wallet.\n  3. The publicKey casing or format does not match what Turnkey has stored.\n\nOriginal error: ".toList,
     rfl⟩

/-- C8 witness: a client throwing the needle message yields the enriched
failure after exactly one call. -/
theorem signing_failure_propagation_witness :
    resourceErrEnv.signRawPayload (signRawPayloadRequest stubSigner ("abcd".toList))
        = .error resourceNotFoundNeedle
    ∧ ((signHash stubSigner resourceErrEnv ("abcd".toList)).2
        = [.signCall (signRawPayloadRequest stubSigner ("abcd".toList))]
      ∧ (containsSub resourceNotFoundNeedle resourceNotFoundNeedle = false →
          (signHash stubSigner resourceErrEnv ("abcd".toList)).1
            = .error (.signingFailed resourceNotFoundNeedle))
      ∧ (containsSub resourceNotFoundNeedle resourceNotFoundNeedle = true →
          (signHash stubSigner resourceErrEnv ("abcd".toList)).1
            = .error (.signingFailed (enrichedSigningErrorMsg
                stubSigner.compressedPublicKey stubSigner.organizationId
                resourceNotFoundNeedle))
          ∧ (∃ a b, a ++ stubSigner.compressedPublicKey ++ b
              = enrichedSigningErrorMsg stubSigner.compressedPublicKey
                  stubSigner.organizationId resourceNotFoundNeedle)
          ∧ (∃ a, a ++ resourceNotFoundNeedle
              = enrichedSigningErrorMsg stubSigner.compressedPublicKey
                  stubSigner.organizationId resourceNotFoundNeedle))) :=
  ⟨rfl,
   signing_failure_propagation stubSigner resourceErrEnv ("abcd".toList)
     resourceNotFoundNeedle rfl⟩

/-! ## C9 — address derivation is deterministic and network-selective -/

/-- C9: with address derivation given by the spec-modelled `deriveAddress`
(for any hash160 function), a validated key yields addresses on both entry
points (`getAddressFromPublicKey` and the signer's `getAddress`); derivation
is a pure function — the repeated-call conjunct is definitional — and it is
network-selective: the testnet and mainnet addresses of the same key always
differ, the testnet address starts with `"ST"` and the mainnet address with
`"SP"`. -/
theorem address_derivation_network_selective (hash160 : List Char → List Nat)
    (env : SignEnv) (pk k : List Char) (st : TurnkeySigner)
    (henv : env.publicKeyToAddress = deriveAddress hash160)
    (hval : validateCompressedPublicKey pk = .ok k)
    (hst : st.compressedPublicKey = k) :
    ∃ a b : List Char,
      getAddressFromPublicKey env pk .testnet = .ok a
      ∧ getAddressFromPublicKey env pk .mainnet = .ok b
      ∧ a ≠ b
      ∧ a.take 2 = ('S' :: 'T' :: [])
      ∧ b.take 2 = ('S' :: 'P' :: [])
      ∧ getAddress env st (some .testnet) = a
      ∧ getAddress env st (some .mainnet) = b
      ∧ getAddressFromPublicKey env pk .testnet = getAddressFromPublicKey env pk .testnet := by
  refine ⟨deriveAddress hash160 k .testnet, deriveAddress hash160 k .mainnet,
    ?_, ?_, ?_, ?_, ?_, ?_, ?_, rfl⟩
  · rw [getAddressFromPublicKey, hval, henv]
  · rw [getAddressFromPublicKey, hval, henv]
  · intro h
    simp only [deriveAddress, c32address, List.cons.injEq] at h
    have hdig : c32Digit (addressVersion .testnet) = c32Digit (addressVersion .mainnet) :=
      h.2.1
    revert hdig
    decide
  · rfl
  · rfl
  · simp only [getAddress, henv, hst, Option.getD_some]
  · simp only [getAddress, henv, hst, Option.getD_some]

/-- C9 witness: a concrete hash160 and key exercise the derivation. -/
theorem address_derivation_network_selective_witness :
    addrEnv.publicKeyToAddress = deriveAddress constHash160
    ∧ validateCompressedPublicKey stubKey = .ok stubKey
    ∧ stubSigner.compressedPublicKey = stubKey
    ∧ (∃ a b : List Char,
        getAddressFromPublicKey addrEnv stubKey .testnet = .ok a
        ∧ getAddressFromPublicKey addrEnv stubKey .mainnet = .ok b
        ∧ a ≠ b
        ∧ a.take 2 = ('S' :: 'T' :: [])
        ∧ b.take 2 = ('S' :: 'P' :: [])
        ∧ getAddress addrEnv stubSigner (some .testnet) = a
        ∧ getAddress addrEnv stubSigner (some .mainnet) = b
        ∧ getAddressFromPublicKey addrEnv stubKey .testnet
            = getAddressFromPublicKey addrEnv stubKey .testnet) :=
  ⟨rfl, by decide, rfl,
   address_derivation_network_selective constHash160 addrEnv stubKey stubKey stubSigner
     rfl (by decide) rfl⟩

/-! ## C10 — a 2xx nonce response without the field silently yields nonce 0 -/

/-- C10: when the nonce service answers with a 2xx status whose JSON body
lacks `possible_next_nonce`, `fetchNonce` silently returns nonce 0, and a
`signSTXTransfer` call without a caller-supplied nonce proceeds: it issues
the nonce fetch and then a signing call over the transaction built with
nonce 0, and any successful result carries nonce 0. -/
theorem missing_nonce_field_defaults_zero (st : TurnkeySigner) (env : SignEnv)
    (params : STXTransferParams)
    (hnonce : params.nonce = none)
    (hvalid : env.validateStacksAddress params.recipient = true)
    (hamt : 0 < params.amount)
    (h2xxA : 200 ≤ (env.fetchResponse (nonceUrl st env params)).status)
    (h2xxB : (env.fetchResponse (nonceUrl st env params)).status ≤ 299)
    (hmiss : (env.fetchResponse (nonceUrl st env params)).possibleNextNonce = none) :
    fetchNonce env (getAddress env st (some (params.network.getD st.network)))
        (params.network.getD st.network)
      = (.ok 0, [.nonceFetch (nonceUrl st env params)])
    ∧ (signSTXTransfer st env params).2
      = [.nonceFetch (nonceUrl st env params),
         .signCall (signRawPayloadRequest st (env.sigHashPreSign (builtTx st params 0)))]
    ∧ ∀ res, (signSTXTransfer st env params).1 = .ok res →
        res.nonce = 0 ∧ res.transaction.nonce = 0 := by
  have hok : (env.fetchResponse (nonceUrl st env params)).ok = true := by
    simp only [HttpResponse.ok, Bool.and_eq_true, decide_eq_true_eq]
    exact ⟨h2xxA, h2xxB⟩
  have hfq : fetchNonce env (getAddress env st (some (params.network.getD st.network)))
      (params.network.getD st.network)
      = (.ok 0, [.nonceFetch (nonceUrl st env params)]) := by
    simp only [fetchNonce]
    rw [if_neg (by rw [show fetchNonceUrl (getAddress env st (some (params.network.getD st.network)))
          (params.network.getD st.network) = nonceUrl st env params from rfl, hok]; simp)]
    rw [show fetchNonceUrl (getAddress env st (some (params.network.getD st.network)))
          (params.network.getD st.network) = nonceUrl st env params from rfl, hmiss]
    rfl
  refine ⟨hfq, ?_⟩
  have hrun : signSTXTransfer st env params =
      (match signHash st env (env.sigHashPreSign (builtTx st params 0)) with
       | (.error e, calls2) => (.error e, .nonceFetch (nonceUrl st env params) :: calls2)
       | (.ok signature, calls2) =>
          match normalizeRecoveryByte signature.v with
          | .error e => (.error e, .nonceFetch (nonceUrl st env params) :: calls2)
          | .ok v =>
            let vrs := v ++ padStart signature.r 64 '0' ++ padStart signature.s 64 '0'
            if vrs.length ≠ 130 then
              (.error (.invalidSignatureLength vrs.length),
               .nonceFetch (nonceUrl st env params) :: calls2)
            else
              (.ok { transaction := { builtTx st params 0 with signature := some vrs },
                     senderAddress := getAddress env st (some (params.network.getD st.network)),
                     nonce := 0,
                     fee := params.fee.getD DEFAULT_FEE },
               .nonceFetch (nonceUrl st env params) :: calls2)) := by
    simp only [signSTXTransfer]
    rw [if_neg (by simp [hvalid]), if_neg (not_le.mpr hamt), hnonce, hfq]
    simp only [builtTx, List.singleton_append]
  rcases hsh : signHash st env (env.sigHashPreSign (builtTx st params 0)) with ⟨sres, calls2⟩
  have hc2 : calls2 = _ :=
    (congrArg Prod.snd hsh).symm.trans (signHash_trace st env _)
  rw [hrun, hsh]
  constructor
  · rcases sres with e | sigv
    · rw [hc2]
    · rcases hnr : normalizeRecoveryByte sigv.v with e2 | v2 <;> simp only [hnr]
      · rw [hc2]
      · split <;> rw [hc2]
  · intro res hres
    rcases sres with e | sigv
    · cases hres
    · rcases hnr : normalizeRecoveryByte sigv.v with e2 | v2 <;> simp only [hnr] at hres
      · cases hres
      · split at hres
        · cases hres
        · simp only [Except.ok.injEq] at hres
          subst hres
          exact ⟨rfl, rfl⟩

/-- C10 witness: a concrete 200-without-field response makes the run proceed
with nonce 0. -/
theorem missing_nonce_field_defaults_zero_witness :
    (noncelessParams.nonce = none
      ∧ noNonceEnv.validateStacksAddress noncelessParams.recipient = true
      ∧ (0 : Int) < noncelessParams.amount
      ∧ (noNonceEnv.fetchResponse
          (nonceUrl stubSigner noNonceEnv noncelessParams)).status = 200
      ∧ (noNonceEnv.fetchResponse
          (nonceUrl stubSigner noNonceEnv noncelessParams)).possibleNextNonce = none)
    ∧ (fetchNonce noNonceEnv
        (getAddress noNonceEnv stubSigner
          (some (noncelessParams.network.getD stubSigner.network)))
        (noncelessParams.network.getD stubSigner.network)
      = (.ok 0, [.nonceFetch (nonceUrl stubSigner noNonceEnv noncelessParams)])
    ∧ (signSTXTransfer stubSigner noNonceEnv noncelessParams).2
      = [.nonceFetch (nonceUrl stubSigner noNonceEnv noncelessParams),
         .signCall (signRawPayloadRequest stubSigner
           (noNonceEnv.sigHashPreSign (builtTx stubSigner noncelessParams 0)))]
    ∧ ∀ res, (signSTXTransfer stubSigner noNonceEnv noncelessParams).1 = .ok res →
        res.nonce = 0 ∧ res.transaction.nonce = 0) :=
  ⟨⟨rfl, rfl, by decide, rfl, rfl⟩,
   missing_nonce_field_defaults_zero stubSigner noNonceEnv noncelessParams
     rfl rfl (by decide) (by decide) (by decide) (by decide)⟩

end TurnkeyStacks
